import Mathlib

/-!
Verification of the glide-performance pipeline of `src/main.py`:
airfoil table loading, required-lift-coefficient lookup with linear
interpolation, and the derived glide-performance quantities.

The Python script is embedded shallowly over an arbitrary
`LinearOrderedField` (standing for the script's floats), with `Option`
for values that may stay at their `NaN` initialisation and
`Except String` for the exceptions the interpreter can raise
(`NameError`, `ZeroDivisionError`, `StopIteration`, and the parse and
read failures the spec groups as `DataFormatError`).

The Python variable `bigger_cd` survives loop iterations and whole
airfoils: it is assigned only inside the interpolation branch
(main.py line 115) yet read in the degenerate first-sample branch
(main.py line 107).  That hidden state is made explicit as an
`Option α` value threaded through every lookup; `none` means the
variable was never assigned, so reading it raises `NameError`.
-/

namespace MarsGlider

/-- One data row of an airfoil table: angle of attack, lift
coefficient and drag coefficient (the parallel lists `alphas`, `cls`,
`cds` built in main.py lines 71-79). -/
structure AirfoilSample (α : Type) where
  alpha : α
  cl : α
  cd : α
deriving DecidableEq

variable {α : Type} [LinearOrderedField α]

/-- One step of the scan in main.py lines 88-92: the accumulator holds
`some (min_alpha, alpha_index)` once `found_alpha` is true.  The guard
is `cl >= needed_cl and (not found_alpha or alpha < min_alpha)`. -/
def scanStep (needed : α) (j : Nat) (s : AirfoilSample α)
    (acc : Option (α × Nat)) : Option (α × Nat) :=
  if needed ≤ s.cl then
    match acc with
    | none => some (s.alpha, j)
    | some (m, i) => if s.alpha < m then some (s.alpha, j) else some (m, i)
  else acc

/-- The scan of main.py lines 88-92 over the remaining samples, `j`
being the index of the first one. -/
def scanFrom (needed : α) : Nat → Option (α × Nat) → List (AirfoilSample α) →
    Option (α × Nat)
  | _, acc, [] => acc
  | j, acc, s :: rest => scanFrom needed (j + 1) (scanStep needed j s acc) rest

/-- The whole scan (main.py lines 87-92): `some (min_alpha, alpha_index)`
for the qualifying sample (`cl >= needed_cl`) of smallest angle of
attack, or `none` when `found_alpha` stays false. -/
def findMinAlpha (samples : List (AirfoilSample α)) (needed : α) :
    Option (α × Nat) :=
  scanFrom needed 0 none samples

/-- One iteration of the per-velocity loop, main.py lines 85-119.
`biggerCd` is the current value of the loop-carried Python variable
`bigger_cd` (`none` when it was never assigned).  Returns the pair
written into `angle_of_attack[i]` and `zero_lift_drag_coefficient[i]`
(`none` meaning the `NaN` initialisation is kept) together with the
value of `bigger_cd` after the iteration, or the exception the
iteration raises: `NameError` when line 107 reads `bigger_cd` before
any assignment, `ZeroDivisionError` when line 110 divides by
`bigger_cl - smaller_cl = 0`. -/
def lookupStep (samples : List (AirfoilSample α)) (needed : α)
    (biggerCd : Option α) :
    Except String ((Option α × Option α) × Option α) :=
  match findMinAlpha samples needed with
  | none => .ok ((none, none), biggerCd)
  | some (m, k) =>
    if k = 0 then
      match biggerCd with
      | none => .error "NameError"
      | some cd => .ok ((some m, some cd), biggerCd)
    else
      let bigger := samples.getD k ⟨0, 0, 0⟩
      let smaller := samples.getD (k - 1) ⟨0, 0, 0⟩
      if bigger.cl - smaller.cl = 0 then .error "ZeroDivisionError"
      else
        let t := (needed - smaller.cl) / (bigger.cl - smaller.cl)
        .ok ((some (smaller.alpha + t * (bigger.alpha - smaller.alpha)),
              some (smaller.cd + t * (bigger.cd - smaller.cd))),
             some bigger.cd)

/-- The per-velocity loop of main.py lines 85-119 over a list of needed
lift coefficients, threading the loop-carried `bigger_cd` value, and
returning it next to the list of per-index results. -/
def lookupSweep (samples : List (AirfoilSample α)) :
    List α → Option α →
    Except String (List (Option α × Option α) × Option α)
  | [], env => .ok ([], env)
  | needed :: rest, env =>
    match lookupStep samples needed env with
    | .error e => .error e
    | .ok (r, env') =>
      match lookupSweep samples rest env' with
      | .error e => .error e
      | .ok (rs, envf) => .ok (r :: rs, envf)

/-- The physical configuration the calculator reads (main.py
lines 11-45): `lift` is the weight-derived constant of line 44. -/
structure GliderConfig (α : Type) where
  lift : α
  air_density : α
  wing_area : α
  aspect_r : α
  oswald_efficiency : α
  begin_altitude : α
deriving DecidableEq

/-- The needed lift coefficient at one velocity, main.py line 56:
`lift / (0.5 * air_density * velocity**2 * wing_area)`. -/
def lift_coefficient (cfg : GliderConfig α) (v : α) : α :=
  cfg.lift / (1 / 2 * cfg.air_density * v ^ 2 * cfg.wing_area)

/-- Main.py lines 125-126:
`lift_coefficient**2 / (np.pi * oswald_efficiency * aspect_ratio)`;
`piV` stands for the external constant `np.pi`. -/
def induced_drag_coefficient (piV : α) (cfg : GliderConfig α) (v : α) : α :=
  lift_coefficient cfg v ^ 2 / (piV * cfg.oswald_efficiency * cfg.aspect_r)

/-- Main.py line 127, with `none` playing the role of `NaN` in
`zero_lift_drag_coefficient` (NaN propagates through `+`). -/
def total_drag_coefficient (piV : α) (cfg : GliderConfig α) (v : α)
    (z : Option α) : Option α :=
  z.map (fun zv => zv + induced_drag_coefficient piV cfg v)

/-- Main.py line 128 (`lift_drag_ratio` in the source); NaN propagates
through the division. -/
def lift_drag (piV : α) (cfg : GliderConfig α) (v : α) (z : Option α) :
    Option α :=
  (total_drag_coefficient piV cfg v z).map (fun tdc => lift_coefficient cfg v / tdc)

/-- Main.py line 130: `glide_ratio * begin_altitude`. -/
def glide_distance (piV : α) (cfg : GliderConfig α) (v : α) (z : Option α) :
    Option α :=
  (lift_drag piV cfg v z).map (fun r => r * cfg.begin_altitude)

/-- Main.py lines 131-132:
`np.sqrt(glide_distance ** 2 + begin_altitude ** 2)`; `sqrtF` stands
for the external function `np.sqrt` (NaN propagates through it). -/
def glide_pythagorean_distance (piV : α) (sqrtF : α → α)
    (cfg : GliderConfig α) (v : α) (z : Option α) : Option α :=
  (glide_distance piV cfg v z).map (fun d => sqrtF (d ^ 2 + cfg.begin_altitude ^ 2))

/-- Main.py line 133: `glide_pythagorean_distance / velocity`. -/
def glide_time (piV : α) (sqrtF : α → α) (cfg : GliderConfig α) (v : α)
    (z : Option α) : Option α :=
  (glide_pythagorean_distance piV sqrtF cfg v z).map (fun s => s / v)

/-- The per-velocity slice of the PerformanceCurve of one airfoil. -/
structure CurvePoint (α : Type) where
  needed_cl : α
  angle_of_attack : Option α
  zero_lift_drag_coefficient : Option α
  induced_drag : α
  total_drag : Option α
  lift_to_drag : Option α
  distance : Option α
  pythagorean_distance : Option α
  time : Option α
deriving DecidableEq

/-- Assembles the derived quantities of main.py lines 125-133 at one
velocity from the lookup result `res = (angle, zero-lift drag)`. -/
def mkPoint (piV : α) (sqrtF : α → α) (cfg : GliderConfig α) (v : α)
    (res : Option α × Option α) : CurvePoint α :=
  ⟨lift_coefficient cfg v, res.1, res.2,
   induced_drag_coefficient piV cfg v,
   total_drag_coefficient piV cfg v res.2,
   lift_drag piV cfg v res.2,
   glide_distance piV cfg v res.2,
   glide_pythagorean_distance piV sqrtF cfg v res.2,
   glide_time piV sqrtF cfg v res.2⟩

/-- One airfoil's pass through the body of the outer loop (main.py
lines 65-133): the PerformanceCurve aligned with the velocities,
together with the value of the loop-carried `bigger_cd` left for the
next airfoil. -/
def computeCurveSt (piV : α) (sqrtF : α → α) (cfg : GliderConfig α)
    (samples : List (AirfoilSample α)) (vels : List α) (env : Option α) :
    Except String (List (CurvePoint α) × Option α) :=
  match lookupSweep samples (vels.map (lift_coefficient cfg)) env with
  | .error e => .error e
  | .ok (rs, envf) => .ok (List.zipWith (mkPoint piV sqrtF cfg) vels rs, envf)

/-- One airfoil's PerformanceCurve, the carried state dropped. -/
def computeCurve (piV : α) (sqrtF : α → α) (cfg : GliderConfig α)
    (samples : List (AirfoilSample α)) (vels : List α) (env : Option α) :
    Except String (List (CurvePoint α)) :=
  match computeCurveSt piV sqrtF cfg samples vels env with
  | .error e => .error e
  | .ok (c, _) => .ok c

/-- The outer loop of main.py line 65: the airfoils processed in order,
the Python variable `bigger_cd` surviving from one airfoil to the
next. -/
def processAirfoils (piV : α) (sqrtF : α → α) (cfg : GliderConfig α)
    (vels : List α) :
    List (List (AirfoilSample α)) → Option α →
    Except String (List (List (CurvePoint α)))
  | [], _ => .ok []
  | tbl :: rest, env =>
    match computeCurveSt piV sqrtF cfg tbl vels env with
    | .error e => .error e
    | .ok (c, env') =>
      match processAirfoils piV sqrtF cfg vels rest env' with
      | .error e => .error e
      | .ok cs => .ok (c :: cs)

/-- One data row turned into a sample (main.py lines 76-79): the first
three fields are parsed by the given float parser; `none` when a field
is missing (`IndexError`) or does not parse (`ValueError`). -/
def parseSample (parse : String → Option α) (row : List String) :
    Option (AirfoilSample α) :=
  match row.get? 0 >>= parse, row.get? 1 >>= parse, row.get? 2 >>= parse with
  | some a, some l, some c => some ⟨a, l, c⟩
  | _, _, _ => none

/-- The row loop of main.py lines 76-79: one sample per data row in
file order, aborting at the first row that does not parse (the spec's
`DataFormatError`). -/
def loadRows (parse : String → Option α) :
    List (List String) → Except String (List (AirfoilSample α))
  | [] => .ok []
  | row :: rest =>
    match parseSample parse row with
    | none => .error "DataFormatError"
    | some s =>
      match loadRows parse rest with
      | .error e => .error e
      | .ok ss => .ok (s :: ss)

/-- The loader of main.py lines 68-79.  A source is `none` when it
cannot be opened or read (the spec folds that into `DataFormatError`),
otherwise the list of CSV rows, each a list of string fields.  The 11
calls to `next(csv_reader)` (lines 74-75) raise `StopIteration` when
the file has fewer than 11 rows; otherwise the first 11 rows are
discarded and the rest are parsed in order. -/
def load (parse : String → Option α)
    (source : Option (List (List String))) :
    Except String (List (AirfoilSample α)) :=
  match source with
  | none => .error "DataFormatError"
  | some rows =>
    if rows.length < 11 then .error "StopIteration"
    else loadRows parse (rows.drop 11)

/-! ### Characterisation of the scan of main.py lines 87-92 -/

/-- Proof-side description of the scan's result on a table sorted by
ascending angle of attack: the first sample with `cl ≥ needed`,
together with its angle of attack. -/
def firstQual (needed : α) : List (AirfoilSample α) → Option (α × Nat)
  | [] => none
  | s :: rest =>
    if needed ≤ s.cl then some (s.alpha, 0)
    else (firstQual needed rest).map (fun p => (p.1, p.2 + 1))

theorem scanStep_keep (needed : α) (j : Nat) (s : AirfoilSample α)
    (m : α) (i : Nat) (hs : m ≤ s.alpha) :
    scanStep needed j s (some (m, i)) = some (m, i) := by
  unfold scanStep
  by_cases h : needed ≤ s.cl <;> simp [h, not_lt.2 hs]

theorem scanFrom_keep (needed m : α) (i : Nat)
    (l : List (AirfoilSample α)) (hall : ∀ s ∈ l, m ≤ s.alpha) :
    ∀ j, scanFrom needed j (some (m, i)) l = some (m, i) := by
  induction l with
  | nil => intro j; rfl
  | cons s rest ih =>
    intro j
    have hs : m ≤ s.alpha := hall s (List.mem_cons_self _ _)
    have hrest : ∀ x ∈ rest, m ≤ x.alpha :=
      fun x hx => hall x (List.mem_cons_of_mem _ hx)
    rw [scanFrom, scanStep_keep needed j s m i hs, ih hrest]

theorem scanFrom_sorted (needed : α) (l : List (AirfoilSample α))
    (hl : l.Pairwise (fun a b => a.alpha ≤ b.alpha)) :
    ∀ j, scanFrom needed j none l =
      (firstQual needed l).map (fun p => (p.1, p.2 + j)) := by
  induction l with
  | nil => intro j; rfl
  | cons s rest ih =>
    intro j
    rcases List.pairwise_cons.1 hl with ⟨hhead, htail⟩
    by_cases h : needed ≤ s.cl
    · rw [scanFrom]
      have hstep : scanStep needed j s none = some (s.alpha, j) := by
        unfold scanStep; simp [h]
      rw [hstep, scanFrom_keep needed s.alpha j rest hhead, firstQual, if_pos h]
      simp
    · rw [scanFrom]
      have hstep : scanStep needed j s none = none := by
        unfold scanStep; simp [h]
      rw [hstep, ih htail, firstQual, if_neg h]
      cases firstQual needed rest with
      | none => rfl
      | some p => simp [Nat.add_assoc, Nat.add_comm 1 j]

theorem findMinAlpha_sorted (needed : α) (l : List (AirfoilSample α))
    (hl : l.Pairwise (fun a b => a.alpha ≤ b.alpha)) :
    findMinAlpha l needed = firstQual needed l := by
  rw [findMinAlpha, scanFrom_sorted needed l hl 0]
  cases firstQual needed l with
  | none => rfl
  | some p => rfl

theorem scanStep_eq_none_iff {needed : α} {j : Nat} {s : AirfoilSample α}
    {acc : Option (α × Nat)} :
    scanStep needed j s acc = none ↔ acc = none ∧ s.cl < needed := by
  unfold scanStep
  by_cases h : needed ≤ s.cl
  · cases acc with
    | none => simp [h, not_lt.2 h]
    | some p =>
      simp only [h, if_true, not_lt.2 h, and_false, iff_false]
      split <;> simp
  · simp [h, not_le.1 h]

theorem scanFrom_eq_none_iff {needed : α} {l : List (AirfoilSample α)} :
    ∀ {j : Nat} {acc : Option (α × Nat)},
      scanFrom needed j acc l = none ↔ acc = none ∧ ∀ s ∈ l, s.cl < needed := by
  induction l with
  | nil => intro j acc; simp [scanFrom]
  | cons s rest ih =>
    intro j acc
    rw [scanFrom, ih, scanStep_eq_none_iff]
    constructor
    · rintro ⟨⟨hacc, hs⟩, hrest⟩
      exact ⟨hacc, by
        intro x hx
        rcases List.mem_cons.1 hx with hx | hx
        · exact hx ▸ hs
        · exact hrest x hx⟩
    · rintro ⟨hacc, hall⟩
      exact ⟨⟨hacc, hall s (List.mem_cons_self _ _)⟩,
        fun x hx => hall x (List.mem_cons_of_mem _ hx)⟩

theorem findMinAlpha_eq_none_iff {needed : α} {l : List (AirfoilSample α)} :
    findMinAlpha l needed = none ↔ ∀ s ∈ l, s.cl < needed := by
  rw [findMinAlpha, scanFrom_eq_none_iff]
  simp

theorem firstQual_spec {needed m : α} :
    ∀ {l : List (AirfoilSample α)} {k : Nat}, firstQual needed l = some (m, k) →
    ∃ hk : k < l.length,
      (l.get ⟨k, hk⟩).alpha = m ∧ needed ≤ (l.get ⟨k, hk⟩).cl ∧
      ∀ j (hj : j < k), (l.get ⟨j, Nat.lt_trans hj hk⟩).cl < needed := by
  intro l
  induction l with
  | nil => intro k h; simp [firstQual] at h
  | cons s rest ih =>
    intro k h
    by_cases hc : needed ≤ s.cl
    · rw [firstQual, if_pos hc] at h
      have h' : s.alpha = m ∧ 0 = k := by simpa using h
      obtain ⟨hm, hk0⟩ := h'
      subst hm
      subst hk0
      exact ⟨Nat.succ_pos _, rfl, hc, fun j hj => absurd hj (Nat.not_lt_zero j)⟩
    · rw [firstQual, if_neg hc] at h
      cases hq : firstQual needed rest with
      | none => rw [hq] at h; simp at h
      | some p =>
        obtain ⟨p1, p2⟩ := p
        rw [hq] at h
        have h' : p1 = m ∧ p2 + 1 = k := by simpa using h
        obtain ⟨hm, hk⟩ := h'
        subst hm
        obtain ⟨hkr, ha, hcl, hlt⟩ := ih hq
        subst hk
        refine ⟨Nat.succ_lt_succ hkr, ?_, ?_, ?_⟩
        · simpa using ha
        · simpa using hcl
        · intro j hj
          cases j with
          | zero => simpa using not_le.1 hc
          | succ j' => simpa using hlt j' (by omega)

theorem firstQual_of {needed : α} :
    ∀ {l : List (AirfoilSample α)} {k : Nat} (hk : k < l.length),
      needed ≤ (l.get ⟨k, hk⟩).cl →
      (∀ j (hj : j < k), (l.get ⟨j, Nat.lt_trans hj hk⟩).cl < needed) →
      firstQual needed l = some ((l.get ⟨k, hk⟩).alpha, k) := by
  intro l
  induction l with
  | nil => intro k hk; exact absurd hk (Nat.not_lt_zero k)
  | cons s rest ih =>
    intro k hk hq hlt
    cases k with
    | zero =>
      have hq' : needed ≤ s.cl := by simpa using hq
      rw [firstQual, if_pos hq']
      simp
    | succ k' =>
      have hs : s.cl < needed := by simpa using hlt 0 (Nat.succ_pos _)
      have hk' : k' < rest.length := Nat.lt_of_succ_lt_succ hk
      rw [firstQual, if_neg (not_le.2 hs),
        ih hk' (by simpa using hq) (by
          intro j hj
          simpa using hlt (j + 1) (Nat.succ_lt_succ hj))]
      simp

theorem getD_of_lt {β : Type} (l : List β) (n : Nat) (d : β)
    (h : n < l.length) : l.getD n d = l.get ⟨n, h⟩ := by
  rw [List.getD_eq_getElem?_getD, List.getElem?_eq_getElem h]
  simp [List.get_eq_getElem]

theorem getElem_cons_one {β : Type} (a b : β) (l : List β)
    (h : 1 < (a :: b :: l).length) : (a :: b :: l)[1] = b := rfl

theorem alpha_mono {l : List (AirfoilSample α)}
    (hs : l.Pairwise (fun a b => a.alpha ≤ b.alpha)) {i j : Nat}
    (hij : i ≤ j) (hi : i < l.length) (hj : j < l.length) :
    (l.get ⟨i, hi⟩).alpha ≤ (l.get ⟨j, hj⟩).alpha := by
  rcases Nat.lt_or_eq_of_le hij with h | h
  · exact List.pairwise_iff_get.1 hs ⟨i, hi⟩ ⟨j, hj⟩ h
  · subst h; exact le_refl _

/-! ### Behaviour of one lookup iteration -/

theorem lookupStep_none_eq {samples : List (AirfoilSample α)} {needed : α}
    (env : Option α) (hfind : findMinAlpha samples needed = none) :
    lookupStep samples needed env = .ok ((none, none), env) := by
  unfold lookupStep
  rw [hfind]

theorem lookupStep_some_eq {samples : List (AirfoilSample α)} {needed m : α}
    {k : Nat} (env : Option α)
    (hfind : findMinAlpha samples needed = some (m, k)) :
    lookupStep samples needed env =
      if k = 0 then
        (match env with
         | none => Except.error "NameError"
         | some cd => Except.ok ((some m, some cd), env))
      else if (samples.getD k ⟨0, 0, 0⟩).cl - (samples.getD (k - 1) ⟨0, 0, 0⟩).cl = 0 then
        Except.error "ZeroDivisionError"
      else
        Except.ok ((some ((samples.getD (k - 1) ⟨0, 0, 0⟩).alpha +
            (needed - (samples.getD (k - 1) ⟨0, 0, 0⟩).cl) /
              ((samples.getD k ⟨0, 0, 0⟩).cl - (samples.getD (k - 1) ⟨0, 0, 0⟩).cl) *
            ((samples.getD k ⟨0, 0, 0⟩).alpha - (samples.getD (k - 1) ⟨0, 0, 0⟩).alpha)),
          some ((samples.getD (k - 1) ⟨0, 0, 0⟩).cd +
            (needed - (samples.getD (k - 1) ⟨0, 0, 0⟩).cl) /
              ((samples.getD k ⟨0, 0, 0⟩).cl - (samples.getD (k - 1) ⟨0, 0, 0⟩).cl) *
            ((samples.getD k ⟨0, 0, 0⟩).cd - (samples.getD (k - 1) ⟨0, 0, 0⟩).cd))),
         some (samples.getD k ⟨0, 0, 0⟩).cd) := by
  unfold lookupStep
  rw [hfind]

theorem lookupStep_interp {samples : List (AirfoilSample α)} {needed m : α}
    {k : Nat} (env : Option α)
    (hsorted : samples.Pairwise (fun a b => a.alpha ≤ b.alpha))
    (hfind : findMinAlpha samples needed = some (m, k)) (hk : 0 < k)
    (hkl : k < samples.length) (hk1 : k - 1 < samples.length) :
    lookupStep samples needed env =
      .ok ((some ((samples.get ⟨k - 1, hk1⟩).alpha +
              (needed - (samples.get ⟨k - 1, hk1⟩).cl) /
                ((samples.get ⟨k, hkl⟩).cl - (samples.get ⟨k - 1, hk1⟩).cl) *
              ((samples.get ⟨k, hkl⟩).alpha - (samples.get ⟨k - 1, hk1⟩).alpha)),
            some ((samples.get ⟨k - 1, hk1⟩).cd +
              (needed - (samples.get ⟨k - 1, hk1⟩).cl) /
                ((samples.get ⟨k, hkl⟩).cl - (samples.get ⟨k - 1, hk1⟩).cl) *
              ((samples.get ⟨k, hkl⟩).cd - (samples.get ⟨k - 1, hk1⟩).cd))),
           some ((samples.get ⟨k, hkl⟩).cd)) := by
  have hfq : firstQual needed samples = some (m, k) := by
    rw [← findMinAlpha_sorted needed samples hsorted]; exact hfind
  obtain ⟨hk', ha, hcl, hlt⟩ := firstQual_spec hfq
  have hcl' : needed ≤ (samples.get ⟨k, hkl⟩).cl := hcl
  have hlow : (samples.get ⟨k - 1, hk1⟩).cl < needed := hlt (k - 1) (by omega)
  have hden : ¬((samples.get ⟨k, hkl⟩).cl - (samples.get ⟨k - 1, hk1⟩).cl = 0) :=
    sub_ne_zero.2 (ne_of_gt (lt_of_lt_of_le hlow hcl'))
  rw [lookupStep_some_eq env hfind, if_neg (Nat.pos_iff_ne_zero.1 hk),
    getD_of_lt samples k _ hkl, getD_of_lt samples (k - 1) _ hk1, if_neg hden]

theorem lookupStep_ok_none_iff {samples : List (AirfoilSample α)} {needed : α}
    {env : Option α} {r : Option α × Option α} {envf : Option α}
    (h : lookupStep samples needed env = .ok (r, envf)) :
    (r.1 = none ↔ ∀ s ∈ samples, s.cl < needed) ∧
    (r.2 = none ↔ ∀ s ∈ samples, s.cl < needed) := by
  cases hfind : findMinAlpha samples needed with
  | none =>
    have hall := findMinAlpha_eq_none_iff.1 hfind
    rw [lookupStep_none_eq env hfind] at h
    have hr : r = (none, none) := by cases h; rfl
    rw [hr]
    exact ⟨⟨fun _ => hall, fun _ => rfl⟩, ⟨fun _ => hall, fun _ => rfl⟩⟩
  | some p =>
    obtain ⟨m, k⟩ := p
    have hnot : ¬∀ s ∈ samples, s.cl < needed := by
      intro hall
      rw [findMinAlpha_eq_none_iff.2 hall] at hfind
      cases hfind
    rw [lookupStep_some_eq env hfind] at h
    by_cases hk : k = 0
    · rw [if_pos hk] at h
      cases env with
      | none => cases h
      | some cd =>
        have hr : r = (some m, some cd) := by cases h; rfl
        rw [hr]
        simp [hnot]
    · rw [if_neg hk] at h
      by_cases hden : (samples.getD k ⟨0, 0, 0⟩).cl - (samples.getD (k - 1) ⟨0, 0, 0⟩).cl = 0
      · rw [if_pos hden] at h
        cases h
      · rw [if_neg hden] at h
        have hr1 : r.1 ≠ none ∧ r.2 ≠ none := by
          cases h
          exact ⟨Option.some_ne_none _, Option.some_ne_none _⟩
        simp [hr1.1, hr1.2, hnot]

theorem lookupStep_env_indep {samples : List (AirfoilSample α)} {needed : α}
    (h0 : (findMinAlpha samples needed).map Prod.snd ≠ some 0)
    (e1 e2 : Option α) :
    lookupStep samples needed e1 = lookupStep samples needed e2 ∨
    (lookupStep samples needed e1 = .ok ((none, none), e1) ∧
     lookupStep samples needed e2 = .ok ((none, none), e2)) := by
  cases hfind : findMinAlpha samples needed with
  | none =>
    exact Or.inr ⟨lookupStep_none_eq e1 hfind, lookupStep_none_eq e2 hfind⟩
  | some p =>
    obtain ⟨m, k⟩ := p
    have hk : ¬(k = 0) := by
      intro hk0
      apply h0
      rw [hfind, hk0]
      rfl
    left
    rw [lookupStep_some_eq e1 hfind, lookupStep_some_eq e2 hfind,
      if_neg hk, if_neg hk]

/-! ### The per-velocity sweep -/

theorem lookupSweep_cons_eq {samples : List (AirfoilSample α)} {needed : α}
    {rest : List α} {env : Option α} {r : Option α × Option α}
    {env' : Option α}
    (hs : lookupStep samples needed env = .ok (r, env')) :
    lookupSweep samples (needed :: rest) env =
      match lookupSweep samples rest env' with
      | .error e => .error e
      | .ok (rs, envf) => .ok (r :: rs, envf) := by
  conv_lhs => unfold lookupSweep
  rw [hs]

theorem lookupSweep_length {samples : List (AirfoilSample α)} :
    ∀ {needs : List α} {env : Option α} {rs : List (Option α × Option α)}
      {envf : Option α},
      lookupSweep samples needs env = .ok (rs, envf) →
      rs.length = needs.length := by
  intro needs
  induction needs with
  | nil =>
    intro env rs envf h
    unfold lookupSweep at h
    cases h
    rfl
  | cons t rest ih =>
    intro env rs envf h
    cases hs : lookupStep samples t env with
    | error e =>
      unfold lookupSweep at h
      rw [hs] at h
      cases h
    | ok p =>
      obtain ⟨r, env'⟩ := p
      rw [lookupSweep_cons_eq hs] at h
      cases hr : lookupSweep samples rest env' with
      | error e => rw [hr] at h; cases h
      | ok q =>
        obtain ⟨rs', envf'⟩ := q
        rw [hr] at h
        cases h
        simp [ih hr]

theorem lookupSweep_get {samples : List (AirfoilSample α)} :
    ∀ {needs : List α} {env : Option α} {rs : List (Option α × Option α)}
      {envf : Option α},
      lookupSweep samples needs env = .ok (rs, envf) →
      ∀ i (hi : i < needs.length) (hi' : i < rs.length),
        ∃ e n, lookupStep samples (needs.get ⟨i, hi⟩) e = .ok (rs.get ⟨i, hi'⟩, n) := by
  intro needs
  induction needs with
  | nil =>
    intro env rs envf h i hi
    exact absurd hi (Nat.not_lt_zero i)
  | cons t rest ih =>
    intro env rs envf h i hi hi'
    cases hs : lookupStep samples t env with
    | error e =>
      unfold lookupSweep at h
      rw [hs] at h
      cases h
    | ok p =>
      obtain ⟨r, env'⟩ := p
      rw [lookupSweep_cons_eq hs] at h
      cases hr : lookupSweep samples rest env' with
      | error e => rw [hr] at h; cases h
      | ok q =>
        obtain ⟨rs', envf'⟩ := q
        rw [hr] at h
        cases h
        cases i with
        | zero => exact ⟨env, env', by simpa using hs⟩
        | succ i' =>
          have hi2 : i' < rest.length := by simpa using hi
          have hi2' : i' < rs'.length := by simpa using hi'
          obtain ⟨e, n, he⟩ := ih hr i' hi2 hi2'
          exact ⟨e, n, by simpa using he⟩

theorem lookupSweep_env_indep {samples : List (AirfoilSample α)} :
    ∀ {needs : List α},
      (∀ t ∈ needs, (findMinAlpha samples t).map Prod.snd ≠ some 0) →
      ∀ e1 e2 : Option α,
        (lookupSweep samples needs e1).map Prod.fst =
        (lookupSweep samples needs e2).map Prod.fst := by
  intro needs
  induction needs with
  | nil => intro _ e1 e2; rfl
  | cons t rest ih =>
    intro h0 e1 e2
    have ht := h0 t (List.mem_cons_self _ _)
    have hrest : ∀ x ∈ rest, (findMinAlpha samples x).map Prod.snd ≠ some 0 :=
      fun x hx => h0 x (List.mem_cons_of_mem _ hx)
    rcases lookupStep_env_indep ht e1 e2 with heq | ⟨h1, h2⟩
    · unfold lookupSweep
      rw [heq]
    · rw [lookupSweep_cons_eq h1, lookupSweep_cons_eq h2]
      have hih := ih hrest e1 e2
      cases hr1 : lookupSweep samples rest e1 with
      | error e =>
        cases hr2 : lookupSweep samples rest e2 with
        | error e' =>
          rw [hr1, hr2] at hih
          simp only [Except.map] at hih
          cases hih
          rfl
        | ok p2 =>
          rw [hr1, hr2] at hih
          simp [Except.map] at hih
      | ok p1 =>
        cases hr2 : lookupSweep samples rest e2 with
        | error e' =>
          rw [hr1, hr2] at hih
          simp [Except.map] at hih
        | ok p2 =>
          obtain ⟨rs1, envf1⟩ := p1
          obtain ⟨rs2, envf2⟩ := p2
          rw [hr1, hr2] at hih
          simp only [Except.map] at hih ⊢
          cases hih
          rfl

/-! ### The per-airfoil curve -/

theorem get_zipWith' {β γ δ : Type} (f : β → γ → δ) (l1 : List β)
    (l2 : List γ) (i : Nat) (h : i < (List.zipWith f l1 l2).length)
    (h1 : i < l1.length) (h2 : i < l2.length) :
    (List.zipWith f l1 l2).get ⟨i, h⟩ = f (l1.get ⟨i, h1⟩) (l2.get ⟨i, h2⟩) := by
  simp [List.get_eq_getElem, List.getElem_zipWith]

theorem computeCurveSt_ok {piV : α} {sqrtF : α → α} {cfg : GliderConfig α}
    {samples : List (AirfoilSample α)} {vels : List α} {env : Option α}
    {curve : List (CurvePoint α)} {envf : Option α}
    (h : computeCurveSt piV sqrtF cfg samples vels env = .ok (curve, envf)) :
    ∃ rs, lookupSweep samples (vels.map (lift_coefficient cfg)) env = .ok (rs, envf) ∧
      rs.length = vels.length ∧
      curve = List.zipWith (mkPoint piV sqrtF cfg) vels rs := by
  unfold computeCurveSt at h
  cases hsw : lookupSweep samples (vels.map (lift_coefficient cfg)) env with
  | error e => rw [hsw] at h; cases h
  | ok p =>
    obtain ⟨rs, envf'⟩ := p
    rw [hsw] at h
    cases h
    refine ⟨rs, rfl, ?_, rfl⟩
    have := lookupSweep_length hsw
    simpa using this

theorem computeCurve_ok {piV : α} {sqrtF : α → α} {cfg : GliderConfig α}
    {samples : List (AirfoilSample α)} {vels : List α} {env : Option α}
    {curve : List (CurvePoint α)}
    (h : computeCurve piV sqrtF cfg samples vels env = .ok curve) :
    ∃ rs envf,
      lookupSweep samples (vels.map (lift_coefficient cfg)) env = .ok (rs, envf) ∧
      rs.length = vels.length ∧
      curve = List.zipWith (mkPoint piV sqrtF cfg) vels rs ∧
      curve.length = vels.length := by
  unfold computeCurve at h
  cases hst : computeCurveSt piV sqrtF cfg samples vels env with
  | error e => rw [hst] at h; cases h
  | ok p =>
    obtain ⟨c, envf⟩ := p
    rw [hst] at h
    cases h
    obtain ⟨rs, hsw, hlen, hcurve⟩ := computeCurveSt_ok hst
    refine ⟨rs, envf, hsw, hlen, hcurve, ?_⟩
    rw [hcurve]
    simp [List.length_zipWith, hlen]

theorem computeCurve_point {piV : α} {sqrtF : α → α} {cfg : GliderConfig α}
    {samples : List (AirfoilSample α)} {vels : List α} {env : Option α}
    {curve : List (CurvePoint α)}
    (h : computeCurve piV sqrtF cfg samples vels env = .ok curve)
    (i : Nat) (hi : i < curve.length) (hv : i < vels.length) :
    ∃ res e n,
      lookupStep samples (lift_coefficient cfg (vels.get ⟨i, hv⟩)) e = .ok (res, n) ∧
      curve.get ⟨i, hi⟩ = mkPoint piV sqrtF cfg (vels.get ⟨i, hv⟩) res := by
  obtain ⟨rs, envf, hsw, hlen, hcurve, hclen⟩ := computeCurve_ok h
  have hrs : i < rs.length := by omega
  have hneeds : i < (vels.map (lift_coefficient cfg)).length := by simpa using hv
  obtain ⟨e, n, he⟩ := lookupSweep_get hsw i hneeds hrs
  have hmap : (vels.map (lift_coefficient cfg)).get ⟨i, hneeds⟩ =
      lift_coefficient cfg (vels.get ⟨i, hv⟩) := by
    simp [List.get_eq_getElem, List.getElem_map]
  refine ⟨rs.get ⟨i, hrs⟩, e, n, ?_, ?_⟩
  · rw [← hmap]; exact he
  · subst hcurve
    exact get_zipWith' (mkPoint piV sqrtF cfg) vels rs i hi hv hrs

/-! ### The loader -/

theorem loadRows_ok_iff {parse : String → Option α} :
    ∀ {rows : List (List String)} {samples : List (AirfoilSample α)},
      loadRows parse rows = .ok samples ↔
      List.Forall₂ (fun r s => parseSample parse r = some s) rows samples := by
  intro rows
  induction rows with
  | nil =>
    intro samples
    unfold loadRows
    constructor
    · intro h; cases h; exact List.Forall₂.nil
    · intro h; cases h; rfl
  | cons row rest ih =>
    intro samples
    constructor
    · intro h
      unfold loadRows at h
      cases hp : parseSample parse row with
      | none => rw [hp] at h; cases h
      | some s =>
        rw [hp] at h
        cases hr : loadRows parse rest with
        | error e => rw [hr] at h; cases h
        | ok ss =>
          rw [hr] at h
          cases h
          exact List.Forall₂.cons hp (ih.1 hr)
    · intro h
      cases h with
      | cons hps hrest =>
        unfold loadRows
        rw [hps, ih.2 hrest]

theorem loadRows_error_iff {parse : String → Option α} :
    ∀ {rows : List (List String)},
      loadRows parse rows =
        (.error "DataFormatError" : Except String (List (AirfoilSample α))) ↔
      ∃ r ∈ rows, parseSample parse r = none := by
  intro rows
  induction rows with
  | nil =>
    unfold loadRows
    simp
  | cons row rest ih =>
    constructor
    · intro h
      unfold loadRows at h
      cases hp : parseSample parse row with
      | none => exact ⟨row, List.mem_cons_self _ _, hp⟩
      | some s =>
        rw [hp] at h
        cases hr : loadRows parse rest with
        | error e =>
          rw [hr] at h
          cases h
          obtain ⟨r, hm, hpr⟩ := ih.1 hr
          exact ⟨r, List.mem_cons_of_mem _ hm, hpr⟩
        | ok ss => rw [hr] at h; cases h
    · rintro ⟨r, hm, hpr⟩
      rcases List.mem_cons.1 hm with hr0 | hm'
      · subst hr0
        unfold loadRows
        rw [hpr]
      · unfold loadRows
        cases hp : parseSample parse row with
        | none => rfl
        | some s =>
          rw [ih.2 ⟨r, hm', hpr⟩]

theorem lookupStep_angle_cases {samples : List (AirfoilSample α)} {needed : α}
    {env n : Option α} {a d : α}
    (hsorted : samples.Pairwise (fun x y => x.alpha ≤ y.alpha))
    (h : lookupStep samples needed env = .ok ((some a, some d), n)) :
    ∃ (k : Nat) (hk : k < samples.length),
      needed ≤ (samples.get ⟨k, hk⟩).cl ∧
      (∀ j (hj : j < k), (samples.get ⟨j, Nat.lt_trans hj hk⟩).cl < needed) ∧
      ((k = 0 ∧ a = (samples.get ⟨k, hk⟩).alpha) ∨
       (0 < k ∧ ∃ hk1 : k - 1 < samples.length,
         a = (samples.get ⟨k - 1, hk1⟩).alpha +
             (needed - (samples.get ⟨k - 1, hk1⟩).cl) /
               ((samples.get ⟨k, hk⟩).cl - (samples.get ⟨k - 1, hk1⟩).cl) *
             ((samples.get ⟨k, hk⟩).alpha - (samples.get ⟨k - 1, hk1⟩).alpha))) := by
  cases hfind : findMinAlpha samples needed with
  | none =>
    rw [lookupStep_none_eq env hfind] at h
    simp at h
  | some p =>
    obtain ⟨m, k⟩ := p
    have hfq : firstQual needed samples = some (m, k) := by
      rw [← findMinAlpha_sorted needed samples hsorted]; exact hfind
    obtain ⟨hk, ha, hclk, hlt⟩ := firstQual_spec hfq
    refine ⟨k, hk, hclk, hlt, ?_⟩
    by_cases hk0 : k = 0
    · subst hk0
      left
      refine ⟨rfl, ?_⟩
      rw [lookupStep_some_eq env hfind, if_pos rfl] at h
      cases env with
      | none => simp at h
      | some cd =>
        have hma : some m = some a := by
          have := congrArg (fun x : Except String ((Option α × Option α) × Option α) =>
            match x with
            | .ok ((x1, _), _) => x1
            | .error _ => none) h
          simpa using this
        have hma' : m = a := by simpa using hma
        rw [← hma', ha]
    · right
      have hkpos : 0 < k := Nat.pos_of_ne_zero hk0
      have hk1 : k - 1 < samples.length := by omega
      refine ⟨hkpos, hk1, ?_⟩
      rw [lookupStep_interp env hsorted hfind hkpos hk hk1] at h
      have := congrArg (fun x : Except String ((Option α × Option α) × Option α) =>
        match x with
        | .ok ((x1, _), _) => x1
        | .error _ => none) h
      simpa using this.symm

/-! ### Claim theorems -/

/-- C1: on a table sorted ascending by angle of attack with ascending
lift coefficients, when the smallest-angle qualifying sample found by
the scan sits at index `k > 0`, `lookup` returns the linear
interpolation of angle of attack and drag coefficient between samples
`k-1` and `k` with `t = (targetCl - Cl[k-1]) / (Cl[k] - Cl[k-1])`,
leaving the loop-carried `bigger_cd` at sample `k`'s drag. -/
theorem claim_C1_interpolation {samples : List (AirfoilSample α)}
    {needed m : α} {k : Nat} (env : Option α)
    (hsorted : samples.Pairwise (fun a b => a.alpha ≤ b.alpha))
    (_hcl : samples.Pairwise (fun a b => a.cl ≤ b.cl))
    (hfind : findMinAlpha samples needed = some (m, k)) (hk : 0 < k)
    (hkl : k < samples.length) (hk1 : k - 1 < samples.length) :
    lookupStep samples needed env =
      .ok ((some ((samples.get ⟨k - 1, hk1⟩).alpha +
              (needed - (samples.get ⟨k - 1, hk1⟩).cl) /
                ((samples.get ⟨k, hkl⟩).cl - (samples.get ⟨k - 1, hk1⟩).cl) *
              ((samples.get ⟨k, hkl⟩).alpha - (samples.get ⟨k - 1, hk1⟩).alpha)),
            some ((samples.get ⟨k - 1, hk1⟩).cd +
              (needed - (samples.get ⟨k - 1, hk1⟩).cl) /
                ((samples.get ⟨k, hkl⟩).cl - (samples.get ⟨k - 1, hk1⟩).cl) *
              ((samples.get ⟨k, hkl⟩).cd - (samples.get ⟨k - 1, hk1⟩).cd))),
           some ((samples.get ⟨k, hkl⟩).cd)) :=
  lookupStep_interp env hsorted hfind hk hkl hk1

/-- Witness for C1 at the spec's example: table
`[(0, 0.0, 0.01), (5, 0.5, 0.02), (10, 1.0, 0.05)]`, `targetCl = 0.25`
gives angle `2.5` and drag `0.015`. -/
theorem claim_C1_witness :
    lookupStep ([⟨0, 0, 1/100⟩, ⟨5, 1/2, 2/100⟩, ⟨10, 1, 5/100⟩] :
        List (AirfoilSample ℚ)) (1/4) none =
      .ok ((some (5/2), some (3/200)), some (1/50)) := by
  have hfind : findMinAlpha ([⟨0, 0, 1/100⟩, ⟨5, 1/2, 2/100⟩, ⟨10, 1, 5/100⟩] :
      List (AirfoilSample ℚ)) (1/4) = some (5, 1) := by
    norm_num [findMinAlpha, scanFrom, scanStep]
  have h := claim_C1_interpolation none
    (by norm_num [List.pairwise_cons]) (by norm_num [List.pairwise_cons])
    hfind (by norm_num) (by norm_num) (by norm_num)
  rw [h]
  norm_num [List.get]

/-- C2 (code bug): at the degenerate first-sample bracket `lookup`
does not return the first sample's own drag: with no previously
assigned `bigger_cd` it raises `NameError`, and with a stale
`bigger_cd = 99` it returns `99` instead of the sample's drag `3`,
because main.py line 107 reads a variable that the branch never
assigns. -/
theorem claim_C2_first_sample_bracket :
    lookupStep ([⟨0, 1, 3⟩] : List (AirfoilSample ℚ)) (1/2) none =
      .error "NameError" ∧
    lookupStep ([⟨0, 1, 3⟩] : List (AirfoilSample ℚ)) (1/2) (some 99) =
      .ok ((some 0, some 99), some 99) ∧
    (99 : ℚ) ≠ 3 := by
  refine ⟨?_, ?_, by norm_num⟩ <;>
    norm_num [lookupStep, findMinAlpha, scanFrom, scanStep]

/-- C3: when the target lift coefficient strictly exceeds every lift
coefficient in the table, `lookup` returns the null pair without
raising, and leaves the carried `bigger_cd` unchanged. -/
theorem claim_C3_out_of_range {samples : List (AirfoilSample α)} {needed : α}
    (env : Option α) (h : ∀ s ∈ samples, s.cl < needed) :
    lookupStep samples needed env = .ok ((none, none), env) :=
  lookupStep_none_eq env (findMinAlpha_eq_none_iff.2 h)

/-- Witness for C3: `targetCl = 2` exceeds every Cl of the spec's
example table, so `lookup` yields the null pair. -/
theorem claim_C3_witness :
    lookupStep ([⟨0, 0, 1/100⟩, ⟨5, 1/2, 2/100⟩, ⟨10, 1, 5/100⟩] :
        List (AirfoilSample ℚ)) 2 none = .ok ((none, none), none) :=
  claim_C3_out_of_range none (by norm_num)

/-- C7 counterexample: for the table `[(0, 1, 3), (5, 2, 4)]` and
`targetCl = 1`, equal to sample 0's lift coefficient, `lookup` does not
return that sample's own `(angle, drag) = (0, 3)`: the first-sample
branch returns the stale `bigger_cd` (here `99`) as drag. -/
theorem claim_C7_counterexample :
    (lookupStep ([⟨0, 1, 3⟩, ⟨5, 2, 4⟩] : List (AirfoilSample ℚ)) 1
        (some 99)).map Prod.fst ≠ .ok (some 0, some 3) := by
  norm_num [lookupStep, findMinAlpha, scanFrom, scanStep, Except.map]

/-- C7 as amended: on a table sorted ascending by angle of attack with
strictly ascending lift coefficients, looking up the exact lift
coefficient of the sample at any index `j ≥ 1` returns that sample's
own angle of attack and drag coefficient exactly (`t` evaluates to 1
and the bracket collapses onto sample `j`). -/
theorem claim_C7_exact_match (samples : List (AirfoilSample α)) (j : Nat)
    (env : Option α)
    (hsorted : samples.Pairwise (fun a b => a.alpha ≤ b.alpha))
    (hstrict : samples.Pairwise (fun a b => a.cl < b.cl))
    (hj : j < samples.length) (hj0 : 0 < j) :
    lookupStep samples ((samples.get ⟨j, hj⟩).cl) env =
      .ok ((some ((samples.get ⟨j, hj⟩).alpha),
            some ((samples.get ⟨j, hj⟩).cd)),
           some ((samples.get ⟨j, hj⟩).cd)) := by
  have hj1 : j - 1 < samples.length := by omega
  have hfq : firstQual ((samples.get ⟨j, hj⟩).cl) samples =
      some ((samples.get ⟨j, hj⟩).alpha, j) :=
    firstQual_of hj (le_refl _)
      (fun i hi => List.pairwise_iff_get.1 hstrict ⟨i, Nat.lt_trans hi hj⟩ ⟨j, hj⟩ hi)
  have hfind : findMinAlpha samples ((samples.get ⟨j, hj⟩).cl) =
      some ((samples.get ⟨j, hj⟩).alpha, j) :=
    (findMinAlpha_sorted _ samples hsorted).trans hfq
  rw [lookupStep_interp env hsorted hfind hj0 hj hj1]
  have hlow : (samples.get ⟨j - 1, hj1⟩).cl < (samples.get ⟨j, hj⟩).cl :=
    List.pairwise_iff_get.1 hstrict ⟨j - 1, hj1⟩ ⟨j, hj⟩ (Fin.mk_lt_mk.2 (by omega))
  have hden : (samples.get ⟨j, hj⟩).cl - (samples.get ⟨j - 1, hj1⟩).cl ≠ 0 :=
    sub_ne_zero.2 (ne_of_gt hlow)
  have e1 : ∀ a b : α, a + (b - a) = b := fun a b => by ring
  simp only [div_self hden, one_mul, e1]

/-- Witness for the amended C7: looking up `0.5`, the exact lift
coefficient of sample 1 in the spec's example table, returns that
sample's own angle `5` and drag `0.02`. -/
theorem claim_C7_witness :
    lookupStep ([⟨0, 0, 1/100⟩, ⟨5, 1/2, 2/100⟩, ⟨10, 1, 5/100⟩] :
        List (AirfoilSample ℚ)) (1/2) none =
      .ok ((some 5, some (2/100)), some (2/100)) := by
  have h := claim_C7_exact_match
    ([⟨0, 0, 1/100⟩, ⟨5, 1/2, 2/100⟩, ⟨10, 1, 5/100⟩] : List (AirfoilSample ℚ))
    1 none (by norm_num [List.pairwise_cons]) (by norm_num [List.pairwise_cons])
    (by norm_num) (by norm_num)
  simpa [List.get] using h

/-- C8: on a table sorted ascending by angle of attack with
non-decreasing lift coefficients, whenever two lookups both return
non-null results, the angle returned for the larger target lift
coefficient is at least the angle returned for the smaller one. -/
theorem claim_C8_monotone {samples : List (AirfoilSample α)} {t1 t2 : α}
    {e1 e2 n1 n2 : Option α} {a1 d1 a2 d2 : α}
    (hsorted : samples.Pairwise (fun a b => a.alpha ≤ b.alpha))
    (_hcl : samples.Pairwise (fun a b => a.cl ≤ b.cl))
    (h12 : t1 ≤ t2)
    (h1 : lookupStep samples t1 e1 = .ok ((some a1, some d1), n1))
    (h2 : lookupStep samples t2 e2 = .ok ((some a2, some d2), n2)) :
    a1 ≤ a2 := by
  obtain ⟨k1, hk1, hq1, hlt1, hc1⟩ := lookupStep_angle_cases hsorted h1
  obtain ⟨k2, hk2, hq2, hlt2, hc2⟩ := lookupStep_angle_cases hsorted h2
  have hk12 : k1 ≤ k2 := by
    by_contra hcon
    push_neg at hcon
    have hx : (samples.get ⟨k2, hk2⟩).cl < t1 := hlt1 k2 hcon
    have hy : t2 ≤ (samples.get ⟨k2, hk2⟩).cl := hq2
    linarith
  rcases hc2 with ⟨hk20, ha2⟩ | ⟨hk2pos, hk21, ha2⟩
  · subst hk20
    have hk10 : k1 = 0 := Nat.le_zero.1 hk12
    rcases hc1 with ⟨_, ha1⟩ | ⟨hk1pos, _, _⟩
    · subst hk10
      have : a1 = a2 := by rw [ha1, ha2]
      exact le_of_eq this
    · omega
  · have hlow2 : (samples.get ⟨k2 - 1, hk21⟩).cl < t2 := hlt2 (k2 - 1) (by omega)
    have hnum2 : 0 < t2 - (samples.get ⟨k2 - 1, hk21⟩).cl := sub_pos.2 hlow2
    have hden2 : 0 < (samples.get ⟨k2, hk2⟩).cl - (samples.get ⟨k2 - 1, hk21⟩).cl :=
      sub_pos.2 (lt_of_lt_of_le hlow2 hq2)
    have hda2 : 0 ≤ (samples.get ⟨k2, hk2⟩).alpha - (samples.get ⟨k2 - 1, hk21⟩).alpha :=
      sub_nonneg.2 (alpha_mono hsorted (by omega) hk21 hk2)
    have hfrac2 : 0 ≤ (t2 - (samples.get ⟨k2 - 1, hk21⟩).cl) /
        ((samples.get ⟨k2, hk2⟩).cl - (samples.get ⟨k2 - 1, hk21⟩).cl) :=
      div_nonneg hnum2.le hden2.le
    have ha2low : (samples.get ⟨k2 - 1, hk21⟩).alpha ≤ a2 := by
      rw [ha2]
      have := mul_nonneg hfrac2 hda2
      linarith
    rcases hc1 with ⟨hk10, ha1⟩ | ⟨hk1pos, hk11, ha1⟩
    · subst hk10
      have hstep : (samples.get ⟨0, hk1⟩).alpha ≤ (samples.get ⟨k2 - 1, hk21⟩).alpha :=
        alpha_mono hsorted (by omega) hk1 hk21
      rw [ha1]
      linarith
    · have hlow1 : (samples.get ⟨k1 - 1, hk11⟩).cl < t1 := hlt1 (k1 - 1) (by omega)
      have hden1 : 0 < (samples.get ⟨k1, hk1⟩).cl - (samples.get ⟨k1 - 1, hk11⟩).cl :=
        sub_pos.2 (lt_of_lt_of_le hlow1 hq1)
      have hda1 : 0 ≤ (samples.get ⟨k1, hk1⟩).alpha - (samples.get ⟨k1 - 1, hk11⟩).alpha :=
        sub_nonneg.2 (alpha_mono hsorted (by omega) hk11 hk1)
      have hfrac1le : (t1 - (samples.get ⟨k1 - 1, hk11⟩).cl) /
          ((samples.get ⟨k1, hk1⟩).cl - (samples.get ⟨k1 - 1, hk11⟩).cl) ≤ 1 :=
        (div_le_one hden1).2 (by linarith)
      have ha1high : a1 ≤ (samples.get ⟨k1, hk1⟩).alpha := by
        rw [ha1]
        have := mul_le_of_le_one_left hda1 hfrac1le
        linarith
      rcases Nat.lt_or_ge k1 k2 with hlt12 | hge
      · have hstep : (samples.get ⟨k1, hk1⟩).alpha ≤ (samples.get ⟨k2 - 1, hk21⟩).alpha :=
          alpha_mono hsorted (by omega) hk1 hk21
        linarith
      · have hk1e : k1 = k2 := le_antisymm hk12 hge
        subst hk1e
        have ha2' : a2 = (samples.get ⟨k1 - 1, hk11⟩).alpha +
            (t2 - (samples.get ⟨k1 - 1, hk11⟩).cl) /
              ((samples.get ⟨k1, hk1⟩).cl - (samples.get ⟨k1 - 1, hk11⟩).cl) *
            ((samples.get ⟨k1, hk1⟩).alpha - (samples.get ⟨k1 - 1, hk11⟩).alpha) := ha2
        have hfracle : (t1 - (samples.get ⟨k1 - 1, hk11⟩).cl) /
            ((samples.get ⟨k1, hk1⟩).cl - (samples.get ⟨k1 - 1, hk11⟩).cl) ≤
            (t2 - (samples.get ⟨k1 - 1, hk11⟩).cl) /
            ((samples.get ⟨k1, hk1⟩).cl - (samples.get ⟨k1 - 1, hk11⟩).cl) :=
          (div_le_div_right hden1).2 (by linarith)
        rw [ha1, ha2']
        have := mul_le_mul_of_nonneg_right hfracle hda1
        linarith

/-- Witness for C8 on the spec's example table: the angle for
`targetCl = 0.25` is `2.5` and the angle for `targetCl = 0.5` is `5`,
and the monotonicity theorem yields `2.5 ≤ 5`. -/
theorem claim_C8_witness :
    lookupStep ([⟨0, 0, 1/100⟩, ⟨5, 1/2, 2/100⟩, ⟨10, 1, 5/100⟩] :
        List (AirfoilSample ℚ)) (1/4) none =
      .ok ((some (5/2), some (3/200)), some (1/50)) ∧
    lookupStep ([⟨0, 0, 1/100⟩, ⟨5, 1/2, 2/100⟩, ⟨10, 1, 5/100⟩] :
        List (AirfoilSample ℚ)) (1/2) none =
      .ok ((some 5, some (2/100)), some (2/100)) ∧
    (5/2 : ℚ) ≤ 5 := by
  have hA : lookupStep ([⟨0, 0, 1/100⟩, ⟨5, 1/2, 2/100⟩, ⟨10, 1, 5/100⟩] :
      List (AirfoilSample ℚ)) (1/4) none =
      .ok ((some (5/2), some (3/200)), some (1/50)) := by
    norm_num [lookupStep, findMinAlpha, scanFrom, scanStep, List.getD]
  have hB : lookupStep ([⟨0, 0, 1/100⟩, ⟨5, 1/2, 2/100⟩, ⟨10, 1, 5/100⟩] :
      List (AirfoilSample ℚ)) (1/2) none =
      .ok ((some 5, some (2/100)), some (2/100)) := by
    norm_num [lookupStep, findMinAlpha, scanFrom, scanStep, List.getD]
  exact ⟨hA, hB, claim_C8_monotone (by norm_num [List.pairwise_cons])
    (by norm_num [List.pairwise_cons]) (by norm_num) hA hB⟩

/-- C4: in a produced PerformanceCurve, the nullable fields
(angle of attack and zero-lift drag) are null at index `i` exactly
when no sample of the airfoil's table has a lift coefficient at least
the required lift coefficient of velocity `i`. -/
theorem claim_C4_null_iff {piV : α} {sqrtF : α → α} {cfg : GliderConfig α}
    {samples : List (AirfoilSample α)} {vels : List α} {env : Option α}
    {curve : List (CurvePoint α)}
    (h : computeCurve piV sqrtF cfg samples vels env = .ok curve)
    (i : Nat) (hi : i < curve.length) (hv : i < vels.length) :
    ((curve.get ⟨i, hi⟩).angle_of_attack = none ↔
      ∀ s ∈ samples, s.cl < lift_coefficient cfg (vels.get ⟨i, hv⟩)) ∧
    ((curve.get ⟨i, hi⟩).zero_lift_drag_coefficient = none ↔
      ∀ s ∈ samples, s.cl < lift_coefficient cfg (vels.get ⟨i, hv⟩)) := by
  obtain ⟨res, e, n, he, hpt⟩ := computeCurve_point h i hi hv
  have hiff := lookupStep_ok_none_iff he
  rw [hpt]
  exact hiff

/-- Witness for C4: with the one-sample table `[(0, 0, 0)]` and a
required lift coefficient of 1, both nullable fields are null and the
characterisation holds at index 0. -/
theorem claim_C4_witness :
    ((([⟨1, none, none, 1, none, none, none, none, none⟩] :
        List (CurvePoint ℚ)).get ⟨0, by norm_num⟩).angle_of_attack = none ↔
      ∀ s ∈ ([⟨0, 0, 0⟩] : List (AirfoilSample ℚ)),
        s.cl < lift_coefficient ⟨1, 2, 1, 1/3, 1, 10000⟩ (([1] : List ℚ).get ⟨0, by norm_num⟩)) ∧
    ((([⟨1, none, none, 1, none, none, none, none, none⟩] :
        List (CurvePoint ℚ)).get ⟨0, by norm_num⟩).zero_lift_drag_coefficient = none ↔
      ∀ s ∈ ([⟨0, 0, 0⟩] : List (AirfoilSample ℚ)),
        s.cl < lift_coefficient ⟨1, 2, 1, 1/3, 1, 10000⟩ (([1] : List ℚ).get ⟨0, by norm_num⟩)) := by
  have h0 : computeCurve (3 : ℚ) (fun x => x) ⟨1, 2, 1, 1/3, 1, 10000⟩
      [⟨0, 0, 0⟩] [1] none =
      .ok [⟨1, none, none, 1, none, none, none, none, none⟩] := by
    norm_num [computeCurve, computeCurveSt, lookupSweep, lookupStep,
      findMinAlpha, scanFrom, scanStep, mkPoint, lift_coefficient,
      induced_drag_coefficient, total_drag_coefficient, lift_drag,
      glide_distance, glide_pythagorean_distance, glide_time]
  exact claim_C4_null_iff h0 0 (by norm_num) (by norm_num)

/-- C5: every produced PerformanceCurve point obeys the derived-quantity
formulas of the spec (required Cl from dynamic pressure, induced drag,
total drag, lift-to-drag, glide distance, slant distance, glide time),
and in particular a lift-to-drag of 10 from altitude 10000 gives a
glide distance of 100000 and a slant distance of
`sqrt(100000^2 + 10000^2)`. -/
theorem claim_C5_formulas {piV : α} {sqrtF : α → α} {cfg : GliderConfig α}
    {samples : List (AirfoilSample α)} {vels : List α} {env : Option α}
    {curve : List (CurvePoint α)}
    (h : computeCurve piV sqrtF cfg samples vels env = .ok curve)
    (i : Nat) (hi : i < curve.length) (hv : i < vels.length) :
    (curve.get ⟨i, hi⟩).needed_cl =
        cfg.lift / (1 / 2 * cfg.air_density * (vels.get ⟨i, hv⟩) ^ 2 * cfg.wing_area) ∧
    (curve.get ⟨i, hi⟩).induced_drag =
        (curve.get ⟨i, hi⟩).needed_cl ^ 2 / (piV * cfg.oswald_efficiency * cfg.aspect_r) ∧
    (curve.get ⟨i, hi⟩).total_drag =
        (curve.get ⟨i, hi⟩).zero_lift_drag_coefficient.map
          (fun z => z + (curve.get ⟨i, hi⟩).induced_drag) ∧
    (curve.get ⟨i, hi⟩).lift_to_drag =
        (curve.get ⟨i, hi⟩).total_drag.map (fun t => (curve.get ⟨i, hi⟩).needed_cl / t) ∧
    (curve.get ⟨i, hi⟩).distance =
        (curve.get ⟨i, hi⟩).lift_to_drag.map (fun r => r * cfg.begin_altitude) ∧
    (curve.get ⟨i, hi⟩).pythagorean_distance =
        (curve.get ⟨i, hi⟩).distance.map
          (fun d => sqrtF (d ^ 2 + cfg.begin_altitude ^ 2)) ∧
    (curve.get ⟨i, hi⟩).time =
        (curve.get ⟨i, hi⟩).pythagorean_distance.map (fun s => s / (vels.get ⟨i, hv⟩)) ∧
    ((curve.get ⟨i, hi⟩).lift_to_drag = some 10 → cfg.begin_altitude = 10000 →
      (curve.get ⟨i, hi⟩).distance = some 100000 ∧
      (curve.get ⟨i, hi⟩).pythagorean_distance =
        some (sqrtF ((100000 : α) ^ 2 + 10000 ^ 2))) := by
  obtain ⟨res, e, n, he, hpt⟩ := computeCurve_point h i hi hv
  rw [hpt]
  refine ⟨rfl, rfl, rfl, rfl, rfl, rfl, rfl, ?_⟩
  intro hr halt
  have hdist : glide_distance piV cfg (vels.get ⟨i, hv⟩) res.2 = some 100000 := by
    have hr' : lift_drag piV cfg (vels.get ⟨i, hv⟩) res.2 = some 10 := hr
    unfold glide_distance
    rw [hr', halt]
    norm_num
  constructor
  · exact hdist
  · show glide_pythagorean_distance piV sqrtF cfg (vels.get ⟨i, hv⟩) res.2 =
      some (sqrtF ((100000 : α) ^ 2 + 10000 ^ 2))
    unfold glide_pythagorean_distance
    rw [hdist, halt]
    rfl

/-- Witness for C5 on a concrete run whose lift-to-drag is exactly 10
from altitude 10000 (the square-root collaborator instantiated as the
identity): glide distance 100000 and slant distance
`sqrtF (100000^2 + 10000^2)`. -/
theorem claim_C5_witness :
    (([⟨1, some (1/2), some (-9/10), 1, some (1/10), some 10, some 100000,
        some 10100000000, some 10100000000⟩] :
      List (CurvePoint ℚ)).get ⟨0, by norm_num⟩).distance = some 100000 ∧
    (([⟨1, some (1/2), some (-9/10), 1, some (1/10), some 10, some 100000,
        some 10100000000, some 10100000000⟩] :
      List (CurvePoint ℚ)).get ⟨0, by norm_num⟩).pythagorean_distance =
      some ((fun x => x) ((100000 : ℚ) ^ 2 + 10000 ^ 2)) := by
  have h0 : computeCurve (3 : ℚ) (fun x => x) ⟨1, 2, 1, 1/3, 1, 10000⟩
      [⟨0, 0, -9/10⟩, ⟨1, 2, -9/10⟩] [1] none =
      .ok [⟨1, some (1/2), some (-9/10), 1, some (1/10), some 10, some 100000,
        some 10100000000, some 10100000000⟩] := by
    norm_num [computeCurve, computeCurveSt, lookupSweep, lookupStep,
      findMinAlpha, scanFrom, scanStep, List.getD, getElem_cons_one, mkPoint,
      lift_coefficient, induced_drag_coefficient, total_drag_coefficient,
      lift_drag, glide_distance, glide_pythagorean_distance, glide_time]
  have h := claim_C5_formulas h0 0 (by norm_num) (by norm_num)
  have hconc := h.2.2.2.2.2.2.2 (by norm_num) rfl
  constructor
  · exact hconc.1
  · exact hconc.2

/-- C6: at any index where the lookup left the zero-lift drag null, all
downstream fields of the PerformanceCurve point (angle of attack, total
drag, lift-to-drag, glide distance, slant distance, glide time) are the
null marker as well, never a number. -/
theorem claim_C6_null_propagation {piV : α} {sqrtF : α → α}
    {cfg : GliderConfig α} {samples : List (AirfoilSample α)} {vels : List α}
    {env : Option α} {curve : List (CurvePoint α)}
    (h : computeCurve piV sqrtF cfg samples vels env = .ok curve)
    (i : Nat) (hi : i < curve.length) (hv : i < vels.length)
    (hz : (curve.get ⟨i, hi⟩).zero_lift_drag_coefficient = none) :
    (curve.get ⟨i, hi⟩).angle_of_attack = none ∧
    (curve.get ⟨i, hi⟩).total_drag = none ∧
    (curve.get ⟨i, hi⟩).lift_to_drag = none ∧
    (curve.get ⟨i, hi⟩).distance = none ∧
    (curve.get ⟨i, hi⟩).pythagorean_distance = none ∧
    (curve.get ⟨i, hi⟩).time = none := by
  obtain ⟨res, e, n, he, hpt⟩ := computeCurve_point h i hi hv
  rw [hpt] at hz ⊢
  have hres2 : res.2 = none := hz
  have hiff := lookupStep_ok_none_iff he
  have hres1 : res.1 = none := hiff.1.2 (hiff.2.1 hres2)
  refine ⟨hres1, ?_, ?_, ?_, ?_, ?_⟩ <;>
    simp [mkPoint, total_drag_coefficient, lift_drag, glide_distance,
      glide_pythagorean_distance, glide_time, hres2]

/-- Witness for C6 at the same degenerate point as C4: a null zero-lift
drag at index 0 forces every downstream field to null. -/
theorem claim_C6_witness :
    ((([⟨1, none, none, 1, none, none, none, none, none⟩] :
        List (CurvePoint ℚ)).get ⟨0, by norm_num⟩).angle_of_attack = none) ∧
    ((([⟨1, none, none, 1, none, none, none, none, none⟩] :
        List (CurvePoint ℚ)).get ⟨0, by norm_num⟩).total_drag = none) ∧
    ((([⟨1, none, none, 1, none, none, none, none, none⟩] :
        List (CurvePoint ℚ)).get ⟨0, by norm_num⟩).lift_to_drag = none) ∧
    ((([⟨1, none, none, 1, none, none, none, none, none⟩] :
        List (CurvePoint ℚ)).get ⟨0, by norm_num⟩).distance = none) ∧
    ((([⟨1, none, none, 1, none, none, none, none, none⟩] :
        List (CurvePoint ℚ)).get ⟨0, by norm_num⟩).pythagorean_distance = none) ∧
    ((([⟨1, none, none, 1, none, none, none, none, none⟩] :
        List (CurvePoint ℚ)).get ⟨0, by norm_num⟩).time = none) := by
  have h0 : computeCurve (3 : ℚ) (fun x => x) ⟨1, 2, 1, 1/3, 1, 10000⟩
      [⟨0, 0, 0⟩] [1] none =
      .ok [⟨1, none, none, 1, none, none, none, none, none⟩] := by
    norm_num [computeCurve, computeCurveSt, lookupSweep, lookupStep,
      findMinAlpha, scanFrom, scanStep, mkPoint, lift_coefficient,
      induced_drag_coefficient, total_drag_coefficient, lift_drag,
      glide_distance, glide_pythagorean_distance, glide_time]
  exact claim_C6_null_propagation h0 0 (by norm_num) (by norm_num) rfl

/-- C9 counterexample: the second airfoil's PerformanceCurve is not a
function of its own table and the sweep alone.  The single-sample table
`[(0, 1, 3)]` hits the degenerate first-sample bracket, where the drag
written into the curve is the stale `bigger_cd` left by the airfoil
processed before it: preceded by a table with drag 7 the curve carries
7, preceded by one with drag 8 it carries 8. -/
theorem claim_C9_counterexample :
    (processAirfoils (3 : ℚ) (fun x => x) ⟨1, 2, 1, 1/3, 1, 10000⟩ [1]
        [[⟨0, 0, 7⟩, ⟨1, 2, 7⟩], [⟨0, 1, 3⟩]] none).toOption.map
      (fun cs => cs.drop 1) ≠
    (processAirfoils (3 : ℚ) (fun x => x) ⟨1, 2, 1, 1/3, 1, 10000⟩ [1]
        [[⟨0, 0, 8⟩, ⟨1, 2, 8⟩], [⟨0, 1, 3⟩]] none).toOption.map
      (fun cs => cs.drop 1) := by
  norm_num [processAirfoils, computeCurveSt, lookupSweep, lookupStep,
    findMinAlpha, scanFrom, scanStep, List.getD, getElem_cons_one, mkPoint,
    lift_coefficient, induced_drag_coefficient, total_drag_coefficient,
    lift_drag, glide_distance, glide_pythagorean_distance, glide_time,
    Except.toOption]

/-- C9 as amended: an airfoil's PerformanceCurve is independent of the
`bigger_cd` state left behind by previously processed airfoils provided
the degenerate first-sample bracket (scan index 0) is never taken for
any velocity of the sweep; only through that bracket can state cross
airfoils. -/
theorem claim_C9_env_independent {piV : α} {sqrtF : α → α}
    {cfg : GliderConfig α} {samples : List (AirfoilSample α)} {vels : List α}
    (h0 : ∀ t ∈ vels.map (lift_coefficient cfg),
      (findMinAlpha samples t).map Prod.snd ≠ some 0)
    (e1 e2 : Option α) :
    computeCurve piV sqrtF cfg samples vels e1 =
    computeCurve piV sqrtF cfg samples vels e2 := by
  have hsw := lookupSweep_env_indep h0 e1 e2
  unfold computeCurve computeCurveSt
  cases hr1 : lookupSweep samples (vels.map (lift_coefficient cfg)) e1 with
  | error e =>
    cases hr2 : lookupSweep samples (vels.map (lift_coefficient cfg)) e2 with
    | error e' =>
      rw [hr1, hr2] at hsw
      simp only [Except.map] at hsw
      cases hsw
      rfl
    | ok p =>
      rw [hr1, hr2] at hsw
      simp [Except.map] at hsw
  | ok p1 =>
    cases hr2 : lookupSweep samples (vels.map (lift_coefficient cfg)) e2 with
    | error e' =>
      rw [hr1, hr2] at hsw
      simp [Except.map] at hsw
    | ok p2 =>
      obtain ⟨rs1, envf1⟩ := p1
      obtain ⟨rs2, envf2⟩ := p2
      rw [hr1, hr2] at hsw
      simp only [Except.map] at hsw
      cases hsw
      rfl

/-- Witness for the amended C9: for a table whose scan never selects
index 0 over the sweep, the curve is the same whether `bigger_cd`
arrives unassigned or as a stale 5. -/
theorem claim_C9_witness :
    computeCurve (3 : ℚ) (fun x => x) ⟨1, 2, 1, 1/3, 1, 10000⟩
      [⟨0, 0, 7⟩, ⟨1, 2, 7⟩] [1] none =
    computeCurve (3 : ℚ) (fun x => x) ⟨1, 2, 1, 1/3, 1, 10000⟩
      [⟨0, 0, 7⟩, ⟨1, 2, 7⟩] [1] (some 5) :=
  claim_C9_env_independent
    (by norm_num [findMinAlpha, scanFrom, scanStep, lift_coefficient,
      Prod.ext_iff])
    none (some 5)

/-- C10: the loader fails with `DataFormatError` on an unreadable
source; on a readable source with the 11 header rows present it
succeeds exactly when every subsequent row parses into three floats,
producing one sample per data row in file order (`Forall₂` links row
`i` of the remainder to sample `i`), and it fails with
`DataFormatError` exactly when some data row does not parse. -/
theorem claim_C10_load (parse : String → Option α)
    (rows : List (List String)) (samples : List (AirfoilSample α))
    (h11 : 11 ≤ rows.length) :
    load parse none = (.error "DataFormatError" :
      Except String (List (AirfoilSample α))) ∧
    (load parse (some rows) = .ok samples ↔
      List.Forall₂ (fun r s => parseSample parse r = some s)
        (rows.drop 11) samples) ∧
    (load parse (some rows) = .error "DataFormatError" ↔
      ∃ r ∈ rows.drop 11, parseSample parse r = none) := by
  have hnot : ¬(rows.length < 11) := not_lt.2 h11
  have hload : load parse (some rows) = loadRows parse (rows.drop 11) := by
    unfold load
    exact if_neg hnot
  refine ⟨rfl, ?_, ?_⟩ <;> rw [hload]
  · exact loadRows_ok_iff
  · exact loadRows_error_iff

/-- Witness for C10: a 12-row source whose single data row parses to
`(2, 2, 2)` under a toy float parser. -/
theorem claim_C10_witness :
    load (fun s => if s = "2" then some (2 : ℚ) else none) none =
      (.error "DataFormatError" : Except String (List (AirfoilSample ℚ))) ∧
    (load (fun s => if s = "2" then some (2 : ℚ) else none)
        (some (List.replicate 11 [] ++ [["2", "2", "2"]])) = .ok [⟨2, 2, 2⟩] ↔
      List.Forall₂ (fun r s => parseSample
          (fun s' => if s' = "2" then some (2 : ℚ) else none) r = some s)
        ((List.replicate 11 [] ++ [["2", "2", "2"]]).drop 11) [⟨2, 2, 2⟩]) ∧
    (load (fun s => if s = "2" then some (2 : ℚ) else none)
        (some (List.replicate 11 [] ++ [["2", "2", "2"]])) =
        .error "DataFormatError" ↔
      ∃ r ∈ (List.replicate 11 [] ++ [["2", "2", "2"]]).drop 11,
        parseSample (fun s' => if s' = "2" then some (2 : ℚ) else none) r = none) :=
  claim_C10_load (fun s => if s = "2" then some (2 : ℚ) else none)
    (List.replicate 11 [] ++ [["2", "2", "2"]]) [⟨2, 2, 2⟩] (by simp)

end MarsGlider
